import Mathlib

/-!
Verification of the token-bucket rate limiter in `rate_limiter.py`.

Shallow embedding conventions:
* Python `float` values (timestamps, token counts, fill rate) are modelled as `ℚ`
  (exact arithmetic; the claims are about the algorithm's arithmetic, not about
  floating-point rounding).
* `capacity` is annotated `int` in the source but only ever enters the arithmetic
  `min(self.capacity, ...)` mixed with floats, so it is modelled as `ℚ` as well.
* The per-key dictionary `self.__bucket` is modelled as a function
  `String → Option Token` (`none` = key absent).
* The module-level global `dead_letter_queue` (a `deque` that is only ever
  appended to) is modelled as a `List Request` carried in the limiter state.
* `time.time()` is modelled by passing the current time `time_now : ℚ` as an
  explicit argument to `is_request_allowed`.
* The `threading.Lock` and the `print` logging calls have no effect on the
  state or the returned decision and are not modelled; each call to
  `is_request_allowed` is one atomic step.
-/

/-- Embeds the Python dataclass `Request {user_id: str, req_id: int}`. -/
structure Request where
  user_id : String
  req_id : Nat
deriving DecidableEq, Repr

/-- Embeds the Python dataclass `Token {used: float, last_used_at: float}`.
`used` holds the stored token count, `last_used_at` the last-refill timestamp. -/
structure Token where
  used : ℚ
  last_used_at : ℚ
deriving DecidableEq, Repr

/-- Embeds the state of a `TokenBucket` instance together with the module-level
global `dead_letter_queue`. -/
structure TokenBucket where
  fill_rate : ℚ
  capacity : ℚ
  key_func : Request → String
  bucket : String → Option Token
  dlq : List Request

namespace TokenBucket

/-- Embeds `TokenBucket.__init__`: stores `fill_rate`, `capacity` and `key_func`
unchanged (no validation) and starts with an empty bucket dictionary.  The
global `dead_letter_queue` starts empty. -/
def init (fill_rate : ℚ) (capacity : ℚ) (key_func : Request → String) : TokenBucket :=
  { fill_rate := fill_rate
    capacity := capacity
    key_func := key_func
    bucket := fun _ => none
    dlq := [] }

/-- The source's default key function, `lambda req: req.user_id`. -/
def defaultKeyFunc : Request → String := fun req => req.user_id

/-- Embeds `TokenBucket.update_fill_rate`: overwrites `self.fill_rate`. -/
def update_fill_rate (s : TokenBucket) (fill_rate : ℚ) : TokenBucket :=
  { s with fill_rate := fill_rate }

/-- Embeds `TokenBucket.update_capacity`: overwrites `self.capacity`. -/
def update_capacity (s : TokenBucket) (capacity : ℚ) : TokenBucket :=
  { s with capacity := capacity }

/-- Embeds `TokenBucket.is_request_allowed`.  Returns the updated state together
with the returned pair `(allowed, message)`.  Mirrors the source line by line:
lazy creation of a fresh `Token(used=0, last_used_at=time_now)`, elapsed-time
refill, clamp to capacity, the `> 1` admission threshold, the dead-letter-queue
append on denial, and the `new_token - 1` commit on admission. -/
def is_request_allowed (s : TokenBucket) (request : Request) (time_now : ℚ) :
    TokenBucket × Bool × String :=
  let key := s.key_func request
  let b : String → Option Token :=
    if s.bucket key = none then
      fun k => if k = key then some { used := 0, last_used_at := time_now } else s.bucket k
    else
      s.bucket
  let last_successful_token : Token := (b key).getD { used := 0, last_used_at := time_now }
  let elapsed : ℚ := time_now - last_successful_token.last_used_at
  let refill : ℚ := s.fill_rate * elapsed
  let new_token : ℚ := min s.capacity (last_successful_token.used + refill)
  if ¬ new_token > 1 then
    ({ s with bucket := b, dlq := s.dlq ++ [request] }, false, "Rate limit exceed")
  else
    ({ s with
        bucket := fun k =>
          if k = key then some { used := new_token - 1, last_used_at := time_now } else b k
        dlq := s.dlq },
      true, "Allowed")

/-- The candidate token count computed inside `is_request_allowed` before the
decision: `min(self.capacity, token.used + self.fill_rate * elapsed)`, where a
key that is absent is read as the freshly created `Token(0, time_now)`. -/
def candidateTokens (s : TokenBucket) (request : Request) (time_now : ℚ) : ℚ :=
  let tok := (s.bucket (s.key_func request)).getD { used := 0, last_used_at := time_now }
  min s.capacity (tok.used + s.fill_rate * (time_now - tok.last_used_at))

/-- Modelled from the spec: the candidate token count as §4.2 step 2 words it,
with a negative elapsed time "treated as 0, never subtracted".  This clamping
is absent from the source; the definition exists to compare the spec's wording
with `candidateTokens`. -/
def candidateTokensSpecClamped (s : TokenBucket) (request : Request) (time_now : ℚ) : ℚ :=
  let tok := (s.bucket (s.key_func request)).getD { used := 0, last_used_at := time_now }
  min s.capacity (tok.used + s.fill_rate * max 0 (time_now - tok.last_used_at))

end TokenBucket

/-- One externally invokable operation of the limiter. -/
inductive Op where
  | eval (request : Request) (time_now : ℚ)
  | setFillRate (fill_rate : ℚ)
  | setCapacity (capacity : ℚ)

namespace TokenBucket

/-- Runs a sequence of operations from a given state, discarding the returned
decisions (they are recovered by `deniedOf`). -/
def run (s : TokenBucket) : List Op → TokenBucket
  | [] => s
  | Op.eval request time_now :: ops => (s.is_request_allowed request time_now).1.run ops
  | Op.setFillRate x :: ops => (s.update_fill_rate x).run ops
  | Op.setCapacity x :: ops => (s.update_capacity x).run ops

/-- The requests denied while running a sequence of operations, in the order
the denials occur. -/
def deniedOf (s : TokenBucket) : List Op → List Request
  | [] => []
  | Op.eval request time_now :: ops =>
      let r := s.is_request_allowed request time_now
      (if r.2.1 = false then [request] else []) ++ r.1.deniedOf ops
  | Op.setFillRate x :: ops => (s.update_fill_rate x).deniedOf ops
  | Op.setCapacity x :: ops => (s.update_capacity x).deniedOf ops

/-- All stored token counts in the bucket dictionary are nonnegative. -/
def nonnegTokens (s : TokenBucket) : Prop :=
  ∀ k t, s.bucket k = some t → 0 ≤ t.used

end TokenBucket

/-- A concrete state used as input of several witnesses: `fill_rate = 5`,
`capacity = 10`, default key function, one bucket entry
`"u" ↦ Token(used := 5, last_used_at := 1)`, empty dead-letter queue. -/
def demoState : TokenBucket :=
  { fill_rate := 5
    capacity := 10
    key_func := TokenBucket.defaultKeyFunc
    bucket := fun k => if k = "u" then some { used := 5, last_used_at := 1 } else none
    dlq := [] }

/-- A concrete request with user id `"u"`. -/
def demoRequest : Request := { user_id := "u", req_id := 0 }

/-- C1 first scenario state: a fresh limiter with `fill_rate = 5`,
`capacity = 10` and the default key function. -/
def freshLimiter : TokenBucket := TokenBucket.init 5 10 TokenBucket.defaultKeyFunc

/-- The state of `freshLimiter` after its first (denied) call for `"u"` at
time 0. -/
def firstDenied : TokenBucket := (freshLimiter.is_request_allowed demoRequest 0).1

/-- A state whose `"u"` bucket holds exactly one token at its stored timestamp:
evaluating at that same timestamp yields `candidateTokens = 1`, a denial. -/
def lowState : TokenBucket :=
  { fill_rate := 5
    capacity := 10
    key_func := TokenBucket.defaultKeyFunc
    bucket := fun k => if k = "u" then some { used := 1, last_used_at := 2 } else none
    dlq := [] }

/-- A state whose `"u"` bucket stores 8 tokens, used for the capacity-update
scenario of C5 (`update_capacity 5` while 8 tokens are stored). -/
def czState : TokenBucket :=
  { fill_rate := 5
    capacity := 10
    key_func := TokenBucket.defaultKeyFunc
    bucket := fun k => if k = "u" then some { used := 8, last_used_at := 3 } else none
    dlq := [] }

/-- C1: the decision of `is_request_allowed` is `true` iff the candidate token
count `min(capacity, tokens + fillRate * elapsed)` is strictly greater than 1. -/
theorem is_request_allowed_iff_candidate_gt_one (s : TokenBucket) (request : Request)
    (time_now : ℚ) :
    (s.is_request_allowed request time_now).2.1 = true ↔
      s.candidateTokens request time_now > 1 := by
  unfold TokenBucket.is_request_allowed TokenBucket.candidateTokens
  cases h : s.bucket (s.key_func request) with
  | none => simp [h]
  | some t =>
      simp [h]
      split_ifs with hd
      · constructor
        · intro hft; exact absurd hft (by simp)
        · rintro ⟨h1, h2⟩; exact absurd (hd h1) (not_le.mpr h2)
      · push_neg at hd
        exact iff_of_true rfl hd

/-- Evaluation of one call when the key is absent: the bucket entry is created
as `Token(0, time_now)`, the call is denied, and the request is appended to the
dead-letter queue. -/
theorem step_of_absent (s : TokenBucket) (request : Request) (time_now : ℚ)
    (h : s.bucket (s.key_func request) = none) :
    s.is_request_allowed request time_now =
      ({ s with
          bucket := fun k =>
            if k = s.key_func request then some { used := 0, last_used_at := time_now }
            else s.bucket k
          dlq := s.dlq ++ [request] }, false, "Rate limit exceed") := by
  have hc : ¬ (1:ℚ) < min s.capacity (0 + s.fill_rate * (time_now - time_now)) := by
    have hle : min s.capacity ((0:ℚ) + s.fill_rate * (time_now - time_now)) ≤
        0 + s.fill_rate * (time_now - time_now) := min_le_right _ _
    intro hlt
    rw [sub_self, mul_zero, add_zero] at hle hlt
    linarith
  unfold TokenBucket.is_request_allowed
  simp [h, hc]

/-- Evaluation of one call when the key is present and the candidate count is
not above the threshold: the call is denied, the bucket map is untouched, and
the request is appended to the dead-letter queue. -/
theorem step_of_present_denied (s : TokenBucket) (request : Request) (time_now : ℚ)
    (t : Token) (h : s.bucket (s.key_func request) = some t)
    (hc : ¬ (1:ℚ) < min s.capacity (t.used + s.fill_rate * (time_now - t.last_used_at))) :
    s.is_request_allowed request time_now =
      ({ s with dlq := s.dlq ++ [request] }, false, "Rate limit exceed") := by
  unfold TokenBucket.is_request_allowed
  simp [h, hc]

/-- Evaluation of one call when the key is present and the candidate count is
above the threshold: the call is allowed and the entry is overwritten with
`Token(candidate - 1, time_now)`. -/
theorem step_of_present_allowed (s : TokenBucket) (request : Request) (time_now : ℚ)
    (t : Token) (h : s.bucket (s.key_func request) = some t)
    (hc : (1:ℚ) < min s.capacity (t.used + s.fill_rate * (time_now - t.last_used_at))) :
    s.is_request_allowed request time_now =
      ({ s with
          bucket := fun k =>
            if k = s.key_func request then
              some { used := min s.capacity
                       (t.used + s.fill_rate * (time_now - t.last_used_at)) - 1,
                     last_used_at := time_now }
            else s.bucket k }, true, "Allowed") := by
  unfold TokenBucket.is_request_allowed
  simp [h, hc]

/-- When the key is present, `candidateTokens` is the clamped refill of the
stored entry. -/
theorem candidate_of_present (s : TokenBucket) (request : Request) (time_now : ℚ)
    (t : Token) (h : s.bucket (s.key_func request) = some t) :
    s.candidateTokens request time_now =
      min s.capacity (t.used + s.fill_rate * (time_now - t.last_used_at)) := by
  unfold TokenBucket.candidateTokens
  simp [h]

/-- When the key is absent, `candidateTokens` never exceeds the threshold. -/
theorem candidate_of_absent_le_one (s : TokenBucket) (request : Request) (time_now : ℚ)
    (h : s.bucket (s.key_func request) = none) :
    ¬ (1:ℚ) < s.candidateTokens request time_now := by
  unfold TokenBucket.candidateTokens
  intro hlt
  have hle : min s.capacity ((0:ℚ) + s.fill_rate * (time_now - time_now)) ≤
      0 + s.fill_rate * (time_now - time_now) := min_le_right _ _
  rw [h] at hlt
  simp only [Option.getD_none] at hlt
  rw [sub_self, mul_zero, add_zero] at hle hlt
  linarith

/-- The returned Boolean is the decision `candidateTokens > 1`. -/
theorem decision_eq_decide (s : TokenBucket) (request : Request) (time_now : ℚ) :
    (s.is_request_allowed request time_now).2.1 =
      decide (s.candidateTokens request time_now > 1) := by
  have hiff := is_request_allowed_iff_candidate_gt_one s request time_now
  by_cases hc : s.candidateTokens request time_now > 1
  · rw [hiff.mpr hc, decide_eq_true hc]
  · have hb : (s.is_request_allowed request time_now).2.1 = false := by
      cases hB : (s.is_request_allowed request time_now).2.1 with
      | false => rfl
      | true => exact absurd (hiff.mp hB) hc
    rw [hb, decide_eq_false hc]

/-- One call appends the request to the dead-letter queue exactly when it is
denied, and appends nothing otherwise. -/
theorem dlq_of_step (s : TokenBucket) (request : Request) (time_now : ℚ) :
    (s.is_request_allowed request time_now).1.dlq =
      s.dlq ++ (if (s.is_request_allowed request time_now).2.1 = false
                then [request] else []) := by
  cases h : s.bucket (s.key_func request) with
  | none => rw [step_of_absent s request time_now h]; simp
  | some t =>
      by_cases hc : (1:ℚ) < min s.capacity (t.used + s.fill_rate * (time_now - t.last_used_at))
      · rw [step_of_present_allowed s request time_now t h hc]; simp
      · rw [step_of_present_denied s request time_now t h hc]; simp

/-- One call preserves the nonnegativity of all stored token counts. -/
theorem nonneg_of_step (s : TokenBucket) (request : Request) (time_now : ℚ)
    (hs : s.nonnegTokens) : (s.is_request_allowed request time_now).1.nonnegTokens := by
  cases h : s.bucket (s.key_func request) with
  | none =>
      rw [step_of_absent s request time_now h]
      intro k t hkt
      by_cases hk : k = s.key_func request
      · simp only [hk, if_pos rfl] at hkt
        cases hkt
        norm_num
      · simp only [if_neg hk] at hkt
        exact hs k t hkt
  | some t0 =>
      by_cases hc : (1:ℚ) < min s.capacity (t0.used + s.fill_rate * (time_now - t0.last_used_at))
      · rw [step_of_present_allowed s request time_now t0 h hc]
        intro k t hkt
        by_cases hk : k = s.key_func request
        · simp only [hk, if_pos rfl] at hkt
          cases hkt
          simp only []
          linarith
        · simp only [if_neg hk] at hkt
          exact hs k t hkt
      · rw [step_of_present_denied s request time_now t0 h hc]
        exact hs

/-- Running any operation sequence preserves the nonnegativity of all stored
token counts. -/
theorem nonneg_of_run (s : TokenBucket) (ops : List Op) (hs : s.nonnegTokens) :
    (s.run ops).nonnegTokens := by
  induction ops generalizing s with
  | nil => exact hs
  | cons op ops ih =>
      cases op with
      | eval request time_now => exact ih _ (nonneg_of_step s request time_now hs)
      | setFillRate x => exact ih _ hs
      | setCapacity x => exact ih _ hs

/-- C1: a request is allowed iff `candidateTokens = min(capacity, tokens +
fillRate * elapsed)` is strictly greater than 1; with `capacity = 10` and
`fillRate = 5`, the first call on a fresh key is denied, and a call with
`candidateTokens = 2` (elapsed 0.4 s from `tokens = 0`) is allowed and leaves
the stored token count equal to 1. -/
theorem C1_admission_threshold :
    (∀ (s : TokenBucket) (request : Request) (time_now : ℚ),
        (s.is_request_allowed request time_now).2.1 = true ↔
          s.candidateTokens request time_now > 1)
    ∧ (freshLimiter.is_request_allowed demoRequest 0).2.1 = false
    ∧ firstDenied.candidateTokens demoRequest (2/5) = 2
    ∧ (firstDenied.is_request_allowed demoRequest (2/5)).2.1 = true
    ∧ (firstDenied.is_request_allowed demoRequest (2/5)).1.bucket "u" =
        some { used := 1, last_used_at := 2/5 } := by
  have habs : freshLimiter.bucket (freshLimiter.key_func demoRequest) = none := rfl
  have e1 := step_of_absent freshLimiter demoRequest 0 habs
  have hcap : firstDenied.capacity = 10 := by rw [firstDenied, e1]; rfl
  have hfr : firstDenied.fill_rate = 5 := by rw [firstDenied, e1]; rfl
  have hb1 : firstDenied.bucket (firstDenied.key_func demoRequest) =
      some { used := 0, last_used_at := 0 } := by
    rw [firstDenied, e1]
    simp
  have hc2 : (1:ℚ) < min firstDenied.capacity
      ((Token.mk 0 0).used + firstDenied.fill_rate *
        ((2/5 : ℚ) - (Token.mk 0 0).last_used_at)) := by
    rw [hcap, hfr]
    norm_num [min_def]
  have e2 := step_of_present_allowed firstDenied demoRequest (2/5) (Token.mk 0 0) hb1 hc2
  refine ⟨is_request_allowed_iff_candidate_gt_one, ?_, ?_, ?_, ?_⟩
  · rw [e1]
  · rw [candidate_of_present firstDenied demoRequest (2/5) (Token.mk 0 0) hb1, hcap, hfr]
    norm_num [min_def]
  · rw [e2]
  · rw [e2]
    have hkf : firstDenied.key_func demoRequest = "u" := by rw [firstDenied, e1]; rfl
    simp only [hkf, if_pos rfl]
    rw [hcap, hfr]
    norm_num [min_def]

/-- C2 counterexample: at a state whose `"u"` entry has `lastRefillAt = 1`, a
call at `time_now = 0` (negative elapsed, clock skew) is evaluated with
`refill = 5 * (0 - 1) = -5` subtracted from the stored 5 tokens: the code's
candidate is 0 and the call is denied, whereas the clamped computation the
claim describes would yield candidate 5 (an admission). -/
theorem C2_counterexample_negative_elapsed_used :
    demoState.candidateTokens demoRequest 0 = 0
    ∧ demoState.candidateTokensSpecClamped demoRequest 0 = 5
    ∧ (demoState.is_request_allowed demoRequest 0).2.1 = false
    ∧ demoState.fill_rate * ((0:ℚ) - 1) = -5 := by
  have hp : demoState.bucket (demoState.key_func demoRequest) =
      some { used := 5, last_used_at := 1 } := rfl
  have hc : ¬ (1:ℚ) < min demoState.capacity
      ((Token.mk 5 1).used + demoState.fill_rate *
        ((0:ℚ) - (Token.mk 5 1).last_used_at)) := by
    norm_num [demoState, min_def]
  refine ⟨?_, ?_, ?_, ?_⟩
  · rw [candidate_of_present demoState demoRequest 0 (Token.mk 5 1) hp]
    norm_num [demoState, min_def]
  · unfold TokenBucket.candidateTokensSpecClamped
    rw [show demoState.bucket (demoState.key_func demoRequest) =
          some { used := 5, last_used_at := 1 } from rfl]
    norm_num [demoState, min_def, max_def]
  · rw [step_of_present_denied demoState demoRequest 0 (Token.mk 5 1) hp hc]
  · norm_num [demoState]

/-- C2 amended: the elapsed time used in the refill computation is
`now - bucket.lastRefillAt` taken as-is, with no clamping at 0: when the key is
present the decision is exactly `min(capacity, tokens + fillRate * (now -
lastRefillAt)) > 1`, so a negative elapsed value produces a negative refill
that is subtracted from the stored tokens. -/
theorem C2_amended_elapsed_unclamped (s : TokenBucket) (request : Request)
    (time_now : ℚ) (t : Token) (h : s.bucket (s.key_func request) = some t) :
    (s.is_request_allowed request time_now).2.1 =
      decide (min s.capacity (t.used + s.fill_rate * (time_now - t.last_used_at)) > 1) := by
  rw [decision_eq_decide, candidate_of_present s request time_now t h]

/-- Witness for C2 amended: the negative-elapsed input of the counterexample. -/
theorem C2_amended_witness :
    (demoState.is_request_allowed demoRequest 0).2.1 =
      decide (min demoState.capacity
        ((Token.mk 5 1).used + demoState.fill_rate *
          ((0:ℚ) - (Token.mk 5 1).last_used_at)) > 1) :=
  C2_amended_elapsed_unclamped demoState demoRequest 0 (Token.mk 5 1) rfl

/-- C3: a denied call whose key already has a bucket entry leaves the entire
bucket map — hence that entry's stored tokens and `lastRefillAt` — exactly as
it was before the call. -/
theorem C3_denied_leaves_bucket_unchanged (s : TokenBucket) (request : Request)
    (time_now : ℚ) (t : Token) (h : s.bucket (s.key_func request) = some t)
    (hd : (s.is_request_allowed request time_now).2.1 = false) :
    (s.is_request_allowed request time_now).1.bucket = s.bucket := by
  have hc : ¬ s.candidateTokens request time_now > 1 := by
    intro hgt
    rw [(is_request_allowed_iff_candidate_gt_one s request time_now).mpr hgt] at hd
    exact absurd hd (by simp)
  rw [candidate_of_present s request time_now t h] at hc
  rw [step_of_present_denied s request time_now t h hc]

/-- Witness for C3: `lowState` holds exactly one token for `"u"`, so the call
at the stored timestamp is denied and the bucket map is unchanged. -/
theorem C3_witness :
    (lowState.is_request_allowed demoRequest 2).1.bucket = lowState.bucket := by
  have hc : ¬ (1:ℚ) < min lowState.capacity
      ((Token.mk 1 2).used + lowState.fill_rate * ((2:ℚ) - (Token.mk 1 2).last_used_at)) := by
    norm_num [lowState, min_def]
  exact C3_denied_leaves_bucket_unchanged lowState demoRequest 2 (Token.mk 1 2) rfl
    (by rw [step_of_present_denied lowState demoRequest 2 (Token.mk 1 2) rfl hc])

/-- C4: a key seen for the first time gets a lazily created bucket entry with
`tokens = 0` and `lastRefillAt = now`, and that first request is denied. -/
theorem C4_new_key_starts_empty (s : TokenBucket) (request : Request) (time_now : ℚ)
    (h : s.bucket (s.key_func request) = none) :
    (s.is_request_allowed request time_now).1.bucket (s.key_func request) =
      some { used := 0, last_used_at := time_now }
    ∧ (s.is_request_allowed request time_now).2.1 = false := by
  rw [step_of_absent s request time_now h]
  exact ⟨by simp, rfl⟩

/-- Witness for C4: the first call on a fresh limiter. -/
theorem C4_witness :
    (freshLimiter.is_request_allowed demoRequest 0).1.bucket
        (freshLimiter.key_func demoRequest) = some { used := 0, last_used_at := 0 }
    ∧ (freshLimiter.is_request_allowed demoRequest 0).2.1 = false :=
  C4_new_key_starts_empty freshLimiter demoRequest 0 rfl

/-- C5: the candidate is clamped to the capacity configured at the moment of
evaluation — immediately after `update_capacity c` the candidate is at most
`c` — and an allowed call stores `candidateTokens - 1`, so tokens are stored
strictly below the capacity in force at the store. -/
theorem C5_capacity_clamp (s : TokenBucket) (request : Request) (time_now c : ℚ)
    (t : Token) (h : s.bucket (s.key_func request) = some t) :
    (s.update_capacity c).candidateTokens request time_now ≤ c
    ∧ s.candidateTokens request time_now ≤ s.capacity
    ∧ ((s.update_capacity c).candidateTokens request time_now > 1 →
        ((s.update_capacity c).is_request_allowed request time_now).1.bucket
            (s.key_func request) =
          some { used := (s.update_capacity c).candidateTokens request time_now - 1,
                 last_used_at := time_now }) := by
  refine ⟨?_, ?_, ?_⟩
  · rw [candidate_of_present (s.update_capacity c) request time_now t h]
    exact min_le_left _ _
  · rw [candidate_of_present s request time_now t h]
    exact min_le_left _ _
  · intro hgt
    have hc : (1:ℚ) < min (s.update_capacity c).capacity
        (t.used + (s.update_capacity c).fill_rate * (time_now - t.last_used_at)) := by
      rw [candidate_of_present (s.update_capacity c) request time_now t h] at hgt
      exact hgt
    rw [step_of_present_allowed (s.update_capacity c) request time_now t h hc,
      candidate_of_present (s.update_capacity c) request time_now t h]
    simp [TokenBucket.update_capacity]

/-- Witness for C5: the spec's scenario — stored tokens 8 under capacity 10,
then `update_capacity 5`: the next evaluation clamps the candidate to at most
5 before deciding. -/
theorem C5_witness :
    (czState.update_capacity 5).candidateTokens demoRequest 3 ≤ 5
    ∧ czState.candidateTokens demoRequest 3 ≤ czState.capacity
    ∧ ((czState.update_capacity 5).candidateTokens demoRequest 3 > 1 →
        ((czState.update_capacity 5).is_request_allowed demoRequest 3).1.bucket
            (czState.key_func demoRequest) =
          some { used := (czState.update_capacity 5).candidateTokens demoRequest 3 - 1,
                 last_used_at := 3 }) :=
  C5_capacity_clamp czState demoRequest 3 5 (Token.mk 8 3) rfl

/-- C6: over any operation sequence, the dead-letter queue ends up equal to its
initial contents followed by exactly the denied requests, in denial order — so
every denied request appears exactly once, no allowed request appears, and the
order is the order of the denials. -/
theorem C6_dead_letter_queue_exact (s : TokenBucket) (ops : List Op) :
    (s.run ops).dlq = s.dlq ++ s.deniedOf ops := by
  induction ops generalizing s with
  | nil => simp [TokenBucket.run, TokenBucket.deniedOf]
  | cons op ops ih =>
      cases op with
      | eval request time_now =>
          simp only [TokenBucket.run, TokenBucket.deniedOf]
          rw [ih, dlq_of_step, List.append_assoc]
      | setFillRate x =>
          simp only [TokenBucket.run, TokenBucket.deniedOf]
          rw [ih]
          rfl
      | setCapacity x =>
          simp only [TokenBucket.run, TokenBucket.deniedOf]
          rw [ih]
          rfl

/-- C7 counterexample: nonpositive configuration values are accepted, stored
unchanged, and used by the next evaluation — with `fill_rate` updated to `-2`
the evaluation at time 2 computes `min(10, 5 + (-2) * 1) = 3`, admits the
request and stores 2 tokens; nothing rejects the invalid input. -/
theorem C7_counterexample_no_validation :
    (TokenBucket.init (-1) 0 TokenBucket.defaultKeyFunc).fill_rate = -1
    ∧ (TokenBucket.init (-1) 0 TokenBucket.defaultKeyFunc).capacity = 0
    ∧ (demoState.update_fill_rate (-2)).fill_rate = -2
    ∧ (demoState.update_capacity 0).capacity = 0
    ∧ ((demoState.update_fill_rate (-2)).is_request_allowed demoRequest 2).2.1 = true
    ∧ ((demoState.update_fill_rate (-2)).is_request_allowed demoRequest 2).1.bucket "u" =
        some { used := 2, last_used_at := 2 } := by
  have h : (demoState.update_fill_rate (-2)).bucket
      ((demoState.update_fill_rate (-2)).key_func demoRequest) =
      some (Token.mk 5 1) := rfl
  have hc : (1:ℚ) < min (demoState.update_fill_rate (-2)).capacity
      ((Token.mk 5 1).used + (demoState.update_fill_rate (-2)).fill_rate *
        ((2:ℚ) - (Token.mk 5 1).last_used_at)) := by
    norm_num [demoState, TokenBucket.update_fill_rate, min_def]
  have e := step_of_present_allowed (demoState.update_fill_rate (-2)) demoRequest 2
    (Token.mk 5 1) h hc
  refine ⟨rfl, rfl, rfl, rfl, ?_, ?_⟩
  · rw [e]
  · rw [e]
    have hkf : (demoState.update_fill_rate (-2)).key_func demoRequest = "u" := rfl
    simp only [hkf, if_pos rfl]
    norm_num [demoState, TokenBucket.update_fill_rate, min_def]

/-- C7 amended: constructing or updating with `fillRate ≤ 0` or `capacity ≤ 0`
is accepted without any validation: the nonpositive values are stored unchanged
and the next evaluation's decision uses them in the bucket arithmetic. -/
theorem C7_amended_config_unvalidated (s : TokenBucket) (request : Request)
    (time_now x : ℚ) (t : Token) (_hx : x ≤ 0)
    (h : s.bucket (s.key_func request) = some t) :
    (TokenBucket.init x x s.key_func).fill_rate = x
    ∧ (TokenBucket.init x x s.key_func).capacity = x
    ∧ (s.update_fill_rate x).fill_rate = x
    ∧ (s.update_capacity x).capacity = x
    ∧ ((s.update_fill_rate x).is_request_allowed request time_now).2.1 =
        decide (min s.capacity (t.used + x * (time_now - t.last_used_at)) > 1) := by
  refine ⟨rfl, rfl, rfl, rfl, ?_⟩
  rw [decision_eq_decide, candidate_of_present (s.update_fill_rate x) request time_now t h]
  rfl

/-- Witness for C7 amended: updating `demoState` with fill rate `-2`. -/
theorem C7_amended_witness :
    (TokenBucket.init (-2) (-2) demoState.key_func).fill_rate = -2
    ∧ (TokenBucket.init (-2) (-2) demoState.key_func).capacity = -2
    ∧ (demoState.update_fill_rate (-2)).fill_rate = -2
    ∧ (demoState.update_capacity (-2)).capacity = -2
    ∧ ((demoState.update_fill_rate (-2)).is_request_allowed demoRequest 2).2.1 =
        decide (min demoState.capacity
          ((Token.mk 5 1).used + (-2 : ℚ) * ((2:ℚ) - (Token.mk 5 1).last_used_at)) > 1) :=
  C7_amended_config_unvalidated demoState demoRequest 2 (-2) (Token.mk 5 1)
    (by norm_num) rfl

/-- C8: one call mutates at most the bucket entry of the request's own key:
every other key's entry is unchanged. -/
theorem C8_other_keys_untouched (s : TokenBucket) (request : Request) (time_now : ℚ)
    (k : String) (hk : k ≠ s.key_func request) :
    (s.is_request_allowed request time_now).1.bucket k = s.bucket k := by
  cases h : s.bucket (s.key_func request) with
  | none => rw [step_of_absent s request time_now h]; simp [hk]
  | some t =>
      by_cases hc : (1:ℚ) < min s.capacity (t.used + s.fill_rate * (time_now - t.last_used_at))
      · rw [step_of_present_allowed s request time_now t h hc]; simp [hk]
      · rw [step_of_present_denied s request time_now t h hc]

/-- Witness for C8: a call under key `"u"` leaves key `"v"` untouched. -/
theorem C8_witness :
    (freshLimiter.is_request_allowed demoRequest 0).1.bucket "v" =
      freshLimiter.bucket "v" :=
  C8_other_keys_untouched freshLimiter demoRequest 0 "v" (by decide)

/-- C9: in every state reachable from a freshly constructed `TokenBucket` by
any sequence of calls, every stored bucket entry has nonnegative tokens. -/
theorem C9_tokens_nonneg (fill_rate capacity : ℚ) (key_func : Request → String)
    (ops : List Op) (k : String) (t : Token)
    (h : ((TokenBucket.init fill_rate capacity key_func).run ops).bucket k = some t) :
    0 ≤ t.used :=
  nonneg_of_run (TokenBucket.init fill_rate capacity key_func) ops
    (fun k' t' hkt => by simp [TokenBucket.init] at hkt) k t h

/-- Witness for C9: after one denied call on a fresh limiter the `"u"` entry is
`Token(0, 0)`, whose token count is nonnegative. -/
theorem C9_witness : 0 ≤ (Token.mk 0 0).used :=
  C9_tokens_nonneg 5 10 TokenBucket.defaultKeyFunc [Op.eval demoRequest 0] "u"
    (Token.mk 0 0)
    (by
      show ((TokenBucket.init 5 10 TokenBucket.defaultKeyFunc).is_request_allowed
          demoRequest 0).1.bucket "u" = some (Token.mk 0 0)
      rw [step_of_absent (TokenBucket.init 5 10 TokenBucket.defaultKeyFunc) demoRequest 0 rfl]
      simp [TokenBucket.init, TokenBucket.defaultKeyFunc, demoRequest])

/-- C10: a denied first-ever request for a brand-new key still mutates the
bucket store: the entry is created with `tokens = 0` and `lastRefillAt` equal
to the denied request's evaluation time, and a later request for the same key
computes its candidate from an elapsed time measured since that denied
attempt. -/
theorem C10_first_denied_creates_entry (s : TokenBucket) (req req2 : Request)
    (time_now time_now2 : ℚ) (h : s.bucket (s.key_func req) = none)
    (hk : s.key_func req2 = s.key_func req) :
    (s.is_request_allowed req time_now).2.1 = false
    ∧ (s.is_request_allowed req time_now).1.bucket (s.key_func req) =
        some { used := 0, last_used_at := time_now }
    ∧ (s.is_request_allowed req time_now).1.candidateTokens req2 time_now2 =
        min s.capacity (s.fill_rate * (time_now2 - time_now)) := by
  rw [step_of_absent s req time_now h]
  refine ⟨rfl, by simp, ?_⟩
  unfold TokenBucket.candidateTokens
  simp [hk]

/-- Witness for C10: the first call on a fresh limiter at time 0, then the
candidate of a second call at time 1 is `min(10, 5 * (1 - 0))`. -/
theorem C10_witness :
    (freshLimiter.is_request_allowed demoRequest 0).2.1 = false
    ∧ (freshLimiter.is_request_allowed demoRequest 0).1.bucket
        (freshLimiter.key_func demoRequest) = some { used := 0, last_used_at := 0 }
    ∧ (freshLimiter.is_request_allowed demoRequest 0).1.candidateTokens demoRequest 1 =
        min freshLimiter.capacity (freshLimiter.fill_rate * ((1:ℚ) - 0)) :=
  C10_first_denied_creates_entry freshLimiter demoRequest demoRequest 0 1 rfl rfl
